import Mathlib

/-!
Verification of the Robin Hood dashboard application (`src/App.tsx`,
`src/types.ts`).

The development shallowly embeds the state and operations of the three
stateful feature panels:

* the Vault panel (`VaultView`): an in-memory credential list mirrored to a
  durable storage slot (`localStorage` under the key `wealth_vault_keys`,
  written with `JSON.stringify` and read back with `JSON.parse`);
* the Product-Listing panel (`PodFactoryView`): a two-step generation flow
  (`generateProduct`) that calls the external service for structured text and
  then for an image;
* the Chat panel (`ChatbotView`): an append-only message list driven by
  `handleSend`, optionally auto-submitted on mount from a seed prompt.

Persistence is modelled at the level of JSON values: the storage slot holds
an `Option Json` (the parsed form of the stored string, `none` when the key
is absent), `JSON.stringify` of a credential list is `encodeKeys`, and
reading the slot back into the typed credential list is `loadKeys` /
`decodeKeys` (a value that does not have the shape of a serialized
credential list cannot be represented in the typed state, and is surfaced as
an `Except.error`; in the browser this is the case where `JSON.parse` throws
or an unvalidated ill-shaped value is installed into component state).

Asynchronous service calls are modelled by an environment record fixing each
call's outcome; an operation returns its final component state together with
the list of external calls it issued, so single-flight and sequencing
properties are statements about that call list.
-/

namespace RobinHood

/-- The credential category union from `src/types.ts`
(`'payment' | 'social' | 'ecommerce' | 'other'`). -/
inductive Category where
  | payment
  | social
  | ecommerce
  | other
deriving DecidableEq, Repr

/-- The string a `Category` is serialized as (the union members are string
literals in the source). -/
def Category.toString : Category → String
  | .payment => "payment"
  | .social => "social"
  | .ecommerce => "ecommerce"
  | .other => "other"

/-- Recover a `Category` from its string form; `none` for any other string. -/
def Category.ofString (s : String) : Option Category :=
  if s = "payment" then some .payment
  else if s = "social" then some .social
  else if s = "ecommerce" then some .ecommerce
  else if s = "other" then some .other
  else none

/-- `ApiKeyStore` from `src/types.ts`: one credential record of the Vault. -/
structure ApiKeyStore where
  provider : String
  key : String
  category : Category
deriving DecidableEq, Repr

/-- JSON values, the data `JSON.stringify` / `JSON.parse` trade in.
`undefined` is JavaScript's `undefined`: never produced by `JSON.parse`, but
produced by member access on an object lacking the field. Numbers are
modelled as integers (no numeric JSON is produced or consumed by this
application). -/
inductive Json where
  | null
  | undefined
  | bool (b : Bool)
  | num (n : Int)
  | str (s : String)
  | arr (elems : List Json)
  | obj (fields : List (String × Json))

/-- `JSON.stringify` of one credential record: the object literal
`{ provider: newProvider, key: newKey, category }` of `addKey`
(`src/App.tsx` line 87), fields in insertion order. -/
def encodeKey (k : ApiKeyStore) : Json :=
  .obj [("provider", .str k.provider), ("key", .str k.key),
        ("category", .str k.category.toString)]

/-- `JSON.stringify` of the whole credential list (`saveKeys`,
`src/App.tsx` line 82). -/
def encodeKeys (l : List ApiKeyStore) : Json :=
  .arr (l.map encodeKey)

/-- Decode one credential record from its JSON form; `none` when the value
does not have the exact serialized shape. -/
def decodeKey : Json → Option ApiKeyStore
  | .obj [("provider", .str p), ("key", .str k), ("category", .str c)] =>
      (Category.ofString c).map fun cat => ⟨p, k, cat⟩
  | _ => none

/-- Decode a list of credential records element-wise; `none` as soon as one
element is ill-shaped. -/
def decodeKeyList : List Json → Option (List ApiKeyStore)
  | [] => some []
  | j :: js =>
      match decodeKey j, decodeKeyList js with
      | some k, some ks => some (k :: ks)
      | _, _ => none

/-- Read a persisted JSON value back into the typed credential list. A value
that is not an array of well-shaped records is a decoding error (in the
browser: `JSON.parse` threw, or an ill-shaped value was installed into
`keys` unvalidated). -/
def decodeKeys : Json → Except String (List ApiKeyStore)
  | .arr elems =>
      match decodeKeyList elems with
      | some ks => .ok ks
      | none => .error "malformed credential record"
  | _ => .error "persisted value is not a credential array"

/-- The Vault mount effect (`src/App.tsx` lines 75-78):
`const saved = localStorage.getItem('wealth_vault_keys'); if (saved)
setKeys(JSON.parse(saved));` — an absent slot leaves `keys` at its initial
value `[]`; a present slot is decoded. -/
def loadKeys : Option Json → Except String (List ApiKeyStore)
  | none => .ok []
  | some j => decodeKeys j

/-- The state of `VaultView`: its React state hooks (`keys`, `newProvider`,
`newKey`, `category`) plus the `localStorage` slot under
`wealth_vault_keys` (`none` = key absent). -/
structure VaultState where
  keys : List ApiKeyStore
  storage : Option Json
  newProvider : String
  newKey : String
  category : Category

/-- `saveKeys` (`src/App.tsx` lines 80-83): set the in-memory list and
overwrite the storage slot with its serialization. -/
def saveKeys (newKeys : List ApiKeyStore) (s : VaultState) : VaultState :=
  { s with keys := newKeys, storage := some (encodeKeys newKeys) }

/-- `addKey` (`src/App.tsx` lines 85-90): a no-op when the provider or the
secret field is empty (JS falsiness of `''`), otherwise append the record,
persist, and clear the two text fields. -/
def addKey (s : VaultState) : VaultState :=
  if s.newProvider = "" ∨ s.newKey = "" then s
  else
    { saveKeys (s.keys ++ [⟨s.newProvider, s.newKey, s.category⟩]) s with
        newProvider := "", newKey := "" }

/-- `keys.filter((_, i) => i !== index)` (`src/App.tsx` line 93): keep the
elements whose position differs from `target`, positions counted from `n`.
JavaScript array indices are numbers, so the position is an `Int`. -/
def filterIdx {α : Type} (target : Int) : Int → List α → List α
  | _, [] => []
  | n, a :: rest =>
      if n = target then filterIdx target (n + 1) rest
      else a :: filterIdx target (n + 1) rest

/-- `deleteKey` (`src/App.tsx` lines 92-94): filter out the element at the
given position and persist the result (`saveKeys` runs unconditionally). -/
def deleteKey (index : Int) (s : VaultState) : VaultState :=
  saveKeys (filterIdx index 0 s.keys) s

/-- One user-level Vault operation: filling the form and pressing
`Secure Connect` (`addKey`), or pressing a row's delete button
(`deleteKey`). -/
inductive VaultOp where
  | add (provider key : String) (cat : Category)
  | del (index : Int)

/-- Apply one Vault operation to the panel state. -/
def applyOp (s : VaultState) : VaultOp → VaultState
  | .add p k c => addKey { s with newProvider := p, newKey := k, category := c }
  | .del i => deleteKey i s

/-- Apply a sequence of Vault operations in order. -/
def runOps (s : VaultState) (ops : List VaultOp) : VaultState :=
  ops.foldl applyOp s

/-- The Vault panel freshly mounted over empty storage: `useState` initial
values (`[]`, `''`, `''`, `'payment'`) and no persisted value. -/
def initialVault : VaultState :=
  ⟨[], none, "", "", .payment⟩

/-- One inline image payload of a response part (`part.inlineData`):
a mime type and a base64 payload. -/
structure InlineData where
  mimeType : String
  data : String
deriving DecidableEq, Repr

/-- One part of an image response candidate's content; only the presence and
content of `inlineData` matter to the code. -/
structure Part where
  inlineData : Option InlineData
deriving DecidableEq, Repr

/-- The image-extraction loop of `generateProduct` (`src/App.tsx` lines
231-234): `let b64 = ''; for (const part of parts) if (part.inlineData)
b64 = ` a data URI of that part — each inline part overwrites `b64`. -/
def extractB64 (parts : List Part) : String :=
  parts.foldl
    (fun b64 part =>
      match part.inlineData with
      | some d => "data:" ++ d.mimeType ++ ";base64," ++ d.data
      | none => b64)
    ""

/-- Modelled from the spec: "the first inline image payload" would be the
head of the inline payloads; the code keeps the last, so the comparison
definition here is the LAST inline payload of the part list. -/
def lastInline : List Part → Option InlineData
  | [] => none
  | p :: ps =>
      match lastInline ps with
      | some d => some d
      | none => p.inlineData

/-- JavaScript member access `v.field` on a parsed JSON value: throws
(`Except.error`) on `null`/`undefined`, yields the field (or `undefined`)
on an object, and yields `undefined` on any other primitive or array. -/
def jget : Json → String → Except String Json
  | .null, f => .error ("TypeError: cannot read properties of null: " ++ f)
  | .undefined, f => .error ("TypeError: cannot read properties of undefined: " ++ f)
  | .obj fields, f =>
      .ok (match fields.lookup f with
           | some v => v
           | none => .undefined)
  | _, _ => .ok .undefined

/-- The `results` record of `PodFactoryView` (`src/App.tsx` line 235):
`{ image: b64, title: strategy.title, desc: strategy.description }`.
`title` and `desc` are untyped values read off the parsed strategy JSON. -/
structure GenResult where
  image : String
  title : Json
  desc : Json

/-- The state of `PodFactoryView`: its `prompt`, `isLoading` and `results`
hooks. -/
structure PodState where
  prompt : String
  isLoading : Bool
  results : Option GenResult

/-- Fixed outcomes of the two external calls a Product-Listing submission
can make. `textResult` models the structured-text request followed by
`JSON.parse(strategyResponse.text)`: an error is a rejected call or
unparseable response text, `ok j` is the parsed strategy value.
`imgResult` models the image request followed by
`imgResponse.candidates[0].content.parts`: an error is a rejected call or a
response with no candidate. -/
structure PodEnv where
  textResult : Except String Json
  imgResult : Except String (List Part)

/-- The `contents` string of the structured-text request
(`src/App.tsx` line 220). -/
def strategyPrompt (prompt : String) : String :=
  "Create a high-converting Print-on-Demand product listing for: \"" ++ prompt ++
    "\". Return a JSON object with keys: \"title\", \"description\"."

/-- The `contents` string of the image request (`src/App.tsx` line 227). -/
def imagePrompt (prompt : String) : String :=
  "Vectorized design for a high-end apparel product, white background, " ++
    "high-resolution minimalist aesthetic: " ++ prompt

/-- One external call issued by the Product-Listing panel, tagged with the
full `contents` string sent. -/
inductive CallTag where
  | textGen (contents : String)
  | imageGen (contents : String)
deriving DecidableEq, Repr

/-- `generateProduct` (`src/App.tsx` lines 212-238), as a function from the
call environment and the pre-submission state to the post-completion state
and the list of external calls issued, in order. The guard
`if (!prompt || isLoading) return;` drops the submission; otherwise
`setIsLoading(true); setResults(null)` run, the structured-text call is
awaited, its text is `JSON.parse`d, the image call is awaited, `b64` is
extracted, and `setResults` stores the combined record (reading
`strategy.title` / `strategy.description`, which throws on a `null`
strategy); any thrown error is caught and only logged, and `finally`
clears `isLoading`. -/
def generateProduct (env : PodEnv) (s : PodState) : PodState × List CallTag :=
  if s.prompt = "" ∨ s.isLoading = true then (s, [])
  else
    match env.textResult with
    | .error _ =>
        ({ s with isLoading := false, results := none },
         [.textGen (strategyPrompt s.prompt)])
    | .ok strategy =>
        match env.imgResult with
        | .error _ =>
            ({ s with isLoading := false, results := none },
             [.textGen (strategyPrompt s.prompt), .imageGen (imagePrompt s.prompt)])
        | .ok parts =>
            match jget strategy "title", jget strategy "description" with
            | .ok t, .ok d =>
                ({ s with isLoading := false,
                          results := some ⟨extractB64 parts, t, d⟩ },
                 [.textGen (strategyPrompt s.prompt), .imageGen (imagePrompt s.prompt)])
            | _, _ =>
                ({ s with isLoading := false, results := none },
                 [.textGen (strategyPrompt s.prompt), .imageGen (imagePrompt s.prompt)])

/-- `ChatMessage` from `src/types.ts`. -/
inductive Role where
  | user
  | model
deriving DecidableEq, Repr

/-- A chat message: role plus text. -/
structure ChatMessage where
  role : Role
  text : String
deriving DecidableEq, Repr

/-- The state of `ChatbotView`: its `messages`, `prompt` and `isLoading`
hooks. -/
structure ChatState where
  messages : List ChatMessage
  prompt : String
  isLoading : Bool

/-- Fixed outcome of one `chatRef.current.sendMessage` call: an error is a
rejected call, `ok r` is `result.text`. -/
structure ChatEnv where
  reply : Except String String

/-- `handleSend` (`src/App.tsx` lines 311-322), returning the
post-completion state and the list of messages sent to the service.
`const msg = msgOverride || prompt` falls back to the typed prompt when the
override is absent or empty (JS falsiness); `if (!msg || isLoading) return`
drops the submission; `if (!msgOverride) setPrompt('')` clears the input
only for a non-override send; the user message is appended, the call is
awaited, and on success the model reply is appended; an error is caught and
only logged; `finally` clears `isLoading`. -/
def handleSend (env : ChatEnv) (msgOverride : Option String) (s : ChatState) :
    ChatState × List String :=
  let msg := match msgOverride with
    | some m => if m = "" then s.prompt else m
    | none => s.prompt
  if msg = "" ∨ s.isLoading = true then (s, [])
  else
    let prompt1 := match msgOverride with
      | some m => if m = "" then "" else s.prompt
      | none => ""
    match env.reply with
    | .ok r =>
        ({ messages := s.messages ++ [⟨.user, msg⟩, ⟨.model, r⟩],
           prompt := prompt1, isLoading := false }, [msg])
    | .error _ =>
        ({ messages := s.messages ++ [⟨.user, msg⟩],
           prompt := prompt1, isLoading := false }, [msg])

/-- Mounting `ChatbotView` (`src/App.tsx` lines 300-309): fresh hook state
(`[]`, `''`, `false`), a chat session is created, and
`if (initialPrompt) handleSend(initialPrompt)` auto-submits a truthy
(present and nonempty) seed. -/
def chatMount (env : ChatEnv) (initialPrompt : Option String) :
    ChatState × List String :=
  let s0 : ChatState := ⟨[], "", false⟩
  match initialPrompt with
  | some p => if p = "" then (s0, []) else handleSend env (some p) s0
  | none => (s0, [])

theorem decodeKey_encodeKey (k : ApiKeyStore) : decodeKey (encodeKey k) = some k := by
  obtain ⟨p, key, c⟩ := k
  cases c <;> rfl

theorem decodeKeys_encodeKeys (l : List ApiKeyStore) :
    decodeKeys (encodeKeys l) = Except.ok l := by
  have h : ∀ l : List ApiKeyStore, decodeKeyList (l.map encodeKey) = some l := by
    intro l
    induction l with
    | nil => rfl
    | cons k rest ih => simp [decodeKeyList, decodeKey_encodeKey, ih]
  simp [decodeKeys, encodeKeys, h]

theorem filterIdx_eq_self {α : Type} (t : Int) (l : List α) (n : Int)
    (h : t < n ∨ (n + l.length : Int) ≤ t) : filterIdx t n l = l := by
  induction l generalizing n with
  | nil => rfl
  | cons a rest ih =>
    have hlen : (0 : Int) ≤ rest.length := by positivity
    have hne : n ≠ t := by
      simp only [List.length_cons] at h
      push_cast at h
      omega
    have hrec : t < n + 1 ∨ ((n + 1) + rest.length : Int) ≤ t := by
      simp only [List.length_cons] at h
      push_cast at h
      omega
    simp only [filterIdx, if_neg hne, ih (n + 1) hrec]

theorem filterIdx_eq_eraseAt {α : Type} (t : Int) (l : List α) (n : Int)
    (h0 : n ≤ t) (h1 : t < n + l.length) :
    filterIdx t n l = l.take (t - n).toNat ++ l.drop ((t - n).toNat + 1) := by
  induction l generalizing n with
  | nil =>
    simp only [List.length_nil] at h1
    omega
  | cons a rest ih =>
    by_cases he : n = t
    · subst he
      have : filterIdx n ((n : Int) + 1) rest = rest := by
        apply filterIdx_eq_self
        left
        omega
      simp [filterIdx, this]
    · have hlt : n < t := lt_of_le_of_ne h0 he
      have hts : (t - n).toNat = (t - (n + 1)).toNat + 1 := by omega
      have hrec : t < (n + 1) + rest.length := by
        simp only [List.length_cons] at h1
        push_cast at h1 ⊢
        omega
      simp only [filterIdx, if_neg he, ih (n + 1) (by omega) hrec, hts]
      rfl

/-- A rejected `addKey` (empty provider or secret) returns without touching
anything. -/
theorem addKey_rejected (s : VaultState) (h : s.newProvider = "" ∨ s.newKey = "") :
    addKey s = s := by
  unfold addKey
  exact if_pos h

/-- An accepted `addKey` appends the new record, persists the appended list,
and clears the two text fields. -/
theorem addKey_accepted (s : VaultState) (h1 : ¬ s.newProvider = "")
    (h2 : ¬ s.newKey = "") :
    addKey s =
      { keys := s.keys ++ [⟨s.newProvider, s.newKey, s.category⟩],
        storage := some (encodeKeys (s.keys ++ [⟨s.newProvider, s.newKey, s.category⟩])),
        newProvider := "", newKey := "", category := s.category } := by
  unfold addKey saveKeys
  rw [if_neg (by tauto)]

/-- The Vault persistence invariant: the storage slot decodes back to the
in-memory list, and when the slot is populated it holds exactly that list's
serialization. -/
def VaultInv (s : VaultState) : Prop :=
  loadKeys s.storage = Except.ok s.keys ∧
  (s.storage = none ∨ s.storage = some (encodeKeys s.keys))

theorem vaultInv_initial : VaultInv initialVault :=
  ⟨rfl, Or.inl rfl⟩

theorem vaultInv_saveKeys (nk : List ApiKeyStore) (s : VaultState) :
    VaultInv (saveKeys nk s) := by
  refine ⟨?_, Or.inr rfl⟩
  show loadKeys (some (encodeKeys nk)) = Except.ok nk
  simpa [loadKeys] using decodeKeys_encodeKeys nk

theorem vaultInv_applyOp (s : VaultState) (h : VaultInv s) (op : VaultOp) :
    VaultInv (applyOp s op) := by
  cases op with
  | add p k c =>
    show VaultInv (addKey { s with newProvider := p, newKey := k, category := c })
    by_cases hv : p = "" ∨ k = ""
    · rw [addKey_rejected _ hv]
      exact h
    · push_neg at hv
      rw [addKey_accepted _ hv.1 hv.2]
      refine ⟨?_, Or.inr rfl⟩
      show loadKeys (some (encodeKeys _)) = Except.ok _
      simpa [loadKeys] using decodeKeys_encodeKeys (s.keys ++ [⟨p, k, c⟩])
  | del i =>
    exact vaultInv_saveKeys _ s

theorem vaultInv_runOps (ops : List VaultOp) (s : VaultState) (h : VaultInv s) :
    VaultInv (runOps s ops) := by
  induction ops generalizing s with
  | nil => exact h
  | cons op rest ih => exact ih (applyOp s op) (vaultInv_applyOp s h op)

/-- Claim C1 (amended): for every sequence of Vault add/delete operations
starting from a fresh panel over empty storage, after each operation a
simulated remount (decoding the persisted slot, an absent slot reading as
empty) reproduces exactly the in-memory credential sequence; and whenever
the slot is populated — that is, after any operation that called
`saveKeys`: any delete, or any add with nonempty fields — it holds exactly
the serialization of the in-memory sequence. (The unamended claim also
required the slot to equal the serialized sequence after a REJECTED add
performed before any persisting operation, where the slot is in fact still
absent; see the counterexample.) -/
theorem c1_roundtrip (ops : List VaultOp) :
    loadKeys (runOps initialVault ops).storage = Except.ok (runOps initialVault ops).keys ∧
    ((runOps initialVault ops).storage = none ∨
      (runOps initialVault ops).storage = some (encodeKeys (runOps initialVault ops).keys)) :=
  vaultInv_runOps ops initialVault vaultInv_initial

/-- Claim C1, counterexample to the unamended statement: from a fresh store,
the single operation `add("", "sk_123", payment)` is rejected, so `saveKeys`
never runs and the storage slot is still absent (`none`) — not the
serialization `encodeKeys [] = Json.arr []` of the in-memory sequence `[]`
that the claim requires the slot to hold after the operation returns. -/
theorem c1_counterexample :
    (runOps initialVault [.add "" "sk_123" .payment]).keys = [] ∧
    ((runOps initialVault [.add "" "sk_123" .payment]).storage).isSome = false := by
  constructor <;> rfl

/-- Claim C3 (amended): `load()` at Vault-panel mount yields the empty
credential sequence when the persisted value is absent, and decodes a
well-formed persisted value to exactly the stored sequence; but a MALFORMED
persisted value is not treated as absent — `setKeys(JSON.parse(saved))` is
unguarded, so decoding fails (in the browser, `JSON.parse` throws out of the
mount effect, or an ill-shaped parsed value is installed unvalidated) rather
than yielding the empty sequence. -/
theorem c3_load (l : List ApiKeyStore) :
    loadKeys none = Except.ok [] ∧ loadKeys (some (encodeKeys l)) = Except.ok l :=
  ⟨rfl, decodeKeys_encodeKeys l⟩

/-- Claim C3, counterexample to the unamended statement: a malformed
persisted value (here the JSON number `42`) does not load as the empty
credential sequence — the load surfaces an error instead of `Except.ok []`. -/
theorem c3_counterexample :
    loadKeys (some (Json.num 42)) =
      Except.error "persisted value is not a credential array" := rfl

/-- Claim C8: for every Vault store of size N and position `i` with
`0 ≤ i < N`, `deleteKey i` removes exactly the element at position `i`: the
remaining sequence is the prefix before `i` followed by the suffix after
`i` (relative order preserved), and its length is `N - 1`. -/
theorem c8_delete_at (s : VaultState) (i : Int) (h0 : 0 ≤ i)
    (h1 : i < (s.keys.length : Int)) :
    (deleteKey i s).keys = s.keys.take i.toNat ++ s.keys.drop (i.toNat + 1) ∧
    (deleteKey i s).keys.length = s.keys.length - 1 := by
  have he : (deleteKey i s).keys = s.keys.take i.toNat ++ s.keys.drop (i.toNat + 1) := by
    show filterIdx i 0 s.keys = _
    rw [filterIdx_eq_eraseAt i s.keys 0 h0 (by omega)]
    norm_num
  refine ⟨he, ?_⟩
  rw [he]
  simp only [List.length_append, List.length_take, List.length_drop]
  omega

/-- A sample three-credential store used to instantiate the hypotheses of
the Vault theorems at concrete inputs. -/
def sampleKeys : List ApiKeyStore :=
  [⟨"Stripe", "sk_123", .payment⟩, ⟨"X", "tok_456", .social⟩,
   ⟨"Gumroad", "gr_789", .ecommerce⟩]

/-- The Vault panel state holding `sampleKeys`, persisted. -/
def sampleVault : VaultState :=
  ⟨sampleKeys, some (encodeKeys sampleKeys), "", "", .payment⟩

/-- Claim C8, witness: deleting position 1 of the concrete three-element
store satisfies the theorem's conclusion. -/
theorem c8_witness :
    (deleteKey 1 sampleVault).keys =
      sampleVault.keys.take (1 : Int).toNat ++ sampleVault.keys.drop ((1 : Int).toNat + 1) ∧
    (deleteKey 1 sampleVault).keys.length = sampleVault.keys.length - 1 :=
  c8_delete_at sampleVault 1 (by decide) (by decide)

/-- Claim C9: `addKey` with an empty provider or an empty secret is a
complete no-op (the state, storage slot included, is unchanged and nothing
is re-persisted); otherwise it appends the record to the end of the
in-memory sequence and synchronously re-persists the entire appended
sequence. -/
theorem c9_add (s : VaultState) :
    (s.newProvider = "" ∨ s.newKey = "" → addKey s = s) ∧
    (¬ s.newProvider = "" → ¬ s.newKey = "" →
      (addKey s).keys = s.keys ++ [⟨s.newProvider, s.newKey, s.category⟩] ∧
      (addKey s).storage =
        some (encodeKeys (s.keys ++ [⟨s.newProvider, s.newKey, s.category⟩]))) := by
  refine ⟨addKey_rejected s, fun h1 h2 => ?_⟩
  rw [addKey_accepted s h1 h2]
  exact ⟨rfl, rfl⟩

/-- Claim C10: for every store and any out-of-range position (negative or
at least the store's size), `deleteKey` leaves the credential sequence
unchanged — same elements in the same order — while still re-persisting
that unchanged sequence; being a total function, it never throws. -/
theorem c10_delete_oob (s : VaultState) (i : Int)
    (h : i < 0 ∨ (s.keys.length : Int) ≤ i) :
    (deleteKey i s).keys = s.keys ∧
    (deleteKey i s).storage = some (encodeKeys s.keys) := by
  have he : filterIdx i 0 s.keys = s.keys := by
    apply filterIdx_eq_self
    rcases h with h | h
    · left; omega
    · right; omega
  constructor
  · show filterIdx i 0 s.keys = s.keys
    exact he
  · show some (encodeKeys (filterIdx i 0 s.keys)) = some (encodeKeys s.keys)
    rw [he]

/-- Claim C10, witness: deleting position -1 of the concrete three-element
store leaves the sequence unchanged and re-persists it. -/
theorem c10_witness :
    (deleteKey (-1) sampleVault).keys = sampleVault.keys ∧
    (deleteKey (-1) sampleVault).storage = some (encodeKeys sampleVault.keys) :=
  c10_delete_oob sampleVault (-1) (Or.inl (by decide))

/-- Claim C2 (amended): a failed Product-Listing submission does NOT leave
the prior successful result visible — `generateProduct` runs
`setResults(null)` before issuing any call, so after an attempt that fails
in either the structured-text step or the image step the panel's result
state is `none`: no partial result, but also no prior result (the prior
successful result is cleared at submission start, not preserved). -/
theorem c2_result_cleared (env : PodEnv) (s : PodState)
    (hp : ¬ s.prompt = "") (hl : s.isLoading = false)
    (hfail : (∃ e, env.textResult = Except.error e) ∨
             (∃ e, env.imgResult = Except.error e)) :
    (generateProduct env s).1.results = none := by
  have hcond : ¬ (s.prompt = "" ∨ s.isLoading = true) := by
    rintro (h | h)
    · exact hp h
    · rw [hl] at h
      cases h
  unfold generateProduct
  rw [if_neg hcond]
  cases ht : env.textResult with
  | error e => rfl
  | ok j =>
    cases hi : env.imgResult with
    | error e => rfl
    | ok parts =>
      exfalso
      rcases hfail with ⟨e, he⟩ | ⟨e, he⟩
      · rw [ht] at he
        cases he
      · rw [hi] at he
        cases he

/-- Claim C2, witness: a concrete failed submission (structured-text call
rejected) over a state with no pending load ends with no result displayed. -/
theorem c2_witness :
    (generateProduct ⟨Except.error "service down", Except.ok []⟩
        ⟨"mug art", false, none⟩).1.results = none :=
  c2_result_cleared ⟨Except.error "service down", Except.ok []⟩
    ⟨"mug art", false, none⟩ (by decide) rfl (Or.inl ⟨"service down", rfl⟩)

/-- Claim C2, counterexample to the unamended statement: the panel holds a
prior successful result (`some ⟨…Old…⟩`), a new submission fails at the
structured-text step, and after the failed attempt the result state is
`none` — the prior result did NOT remain; the failed attempt changed the
result state. -/
theorem c2_counterexample :
    (generateProduct ⟨Except.error "service rejected", Except.ok []⟩
        ⟨"hat design", false,
         some ⟨"data:image/png;base64,OLD", Json.str "Old title",
               Json.str "Old description"⟩⟩).1.results = none := rfl

/-- Claim C4 (amended): the image-extraction loop of `generateProduct`
yields the data URI `data:<mime>;base64,<payload>` of the LAST inline image
payload of the response parts (each inline part overwrites the accumulator),
not the first; if no inline image part is present it yields the empty
string, and extraction is a total function (no crash). -/
theorem c4_extract_last (parts : List Part) :
    extractB64 parts =
      match lastInline parts with
      | some d => "data:" ++ d.mimeType ++ ";base64," ++ d.data
      | none => "" := by
  have key : ∀ (ps : List Part) (acc : String),
      ps.foldl
        (fun b64 part =>
          match part.inlineData with
          | some d => "data:" ++ d.mimeType ++ ";base64," ++ d.data
          | none => b64)
        acc =
      match lastInline ps with
      | some d => "data:" ++ d.mimeType ++ ";base64," ++ d.data
      | none => acc := by
    intro ps
    induction ps with
    | nil =>
      intro acc
      rfl
    | cons p rest ih =>
      intro acc
      cases hp : p.inlineData with
      | some d0 =>
        simp only [List.foldl_cons, hp, ih, lastInline]
        cases lastInline rest <;> rfl
      | none =>
        simp only [List.foldl_cons, hp, ih, lastInline]
        cases lastInline rest <;> rfl
  exact key parts ""

/-- Claim C4, counterexample to the unamended statement: a response with
two inline image parts, payloads `FIRSTPAYLOAD` then `SECONDPAYLOAD`. The
claim says the FIRST payload is extracted
(`data:image/png;base64,FIRSTPAYLOAD`); the loop in fact keeps the last
assignment, yielding the data URI of the second payload. -/
theorem c4_counterexample :
    extractB64 [⟨some ⟨"image/png", "FIRSTPAYLOAD"⟩⟩,
                ⟨some ⟨"image/png", "SECONDPAYLOAD"⟩⟩] =
      "data:image/png;base64,SECONDPAYLOAD" := by decide

/-- Claim C5: while a panel's `isLoading` flag is true, a submit call on
that panel is a no-op — for the Product-Listing panel `generateProduct`
returns the state unchanged and issues no external call, and for the Chat
panel `handleSend` (with or without an override message) returns the state
unchanged and sends nothing: the submission is dropped, not queued, and no
error is raised. -/
theorem c5_single_flight (envP : PodEnv) (sP : PodState) (envC : ChatEnv)
    (msgOverride : Option String) (sC : ChatState)
    (hP : sP.isLoading = true) (hC : sC.isLoading = true) :
    generateProduct envP sP = (sP, []) ∧
    handleSend envC msgOverride sC = (sC, []) := by
  constructor
  · unfold generateProduct
    rw [if_pos (Or.inr hP)]
  · unfold handleSend
    rw [if_pos (Or.inr hC)]

/-- Claim C5, witness: concrete loading states for both panels — a second
submit leaves each state untouched and issues no call. -/
theorem c5_witness :
    generateProduct ⟨Except.ok Json.null, Except.ok []⟩ ⟨"busy prompt", true, none⟩ =
      (⟨"busy prompt", true, none⟩, []) ∧
    handleSend ⟨Except.ok "reply"⟩ none ⟨[], "typed text", true⟩ =
      (⟨[], "typed text", true⟩, []) :=
  c5_single_flight ⟨Except.ok Json.null, Except.ok []⟩ ⟨"busy prompt", true, none⟩
    ⟨Except.ok "reply"⟩ none ⟨[], "typed text", true⟩ rfl rfl

/-- Claim C6: on every accepted Product-Listing submission the
structured-text call is issued first and the image call (built from the
same user prompt) second, sequentially: if the structured-text step fails
the call list is exactly the one text call — no image call is attempted —
and no result is rendered; if it succeeds both calls appear in order; and a
combined result is rendered only when both steps completed successfully. -/
theorem c6_sequential (env : PodEnv) (s : PodState)
    (hp : ¬ s.prompt = "") (hl : s.isLoading = false) :
    ((generateProduct env s).2 =
        if env.textResult.isOk then
          [CallTag.textGen (strategyPrompt s.prompt),
           CallTag.imageGen (imagePrompt s.prompt)]
        else [CallTag.textGen (strategyPrompt s.prompt)]) ∧
    (env.textResult.isOk = false → (generateProduct env s).1.results = none) ∧
    (∀ r, (generateProduct env s).1.results = some r →
      env.textResult.isOk = true ∧ env.imgResult.isOk = true) := by
  have hcond : ¬ (s.prompt = "" ∨ s.isLoading = true) := by
    rintro (h | h)
    · exact hp h
    · rw [hl] at h
      cases h
  unfold generateProduct
  rw [if_neg hcond]
  cases ht : env.textResult with
  | error e => exact ⟨rfl, fun _ => rfl, fun r hr => Option.noConfusion hr⟩
  | ok j =>
    cases hi : env.imgResult with
    | error e =>
      refine ⟨rfl, fun _ => rfl, fun r hr => Option.noConfusion hr⟩
    | ok parts =>
      simp only []
      cases hjt : jget j "title" with
      | error e =>
        cases hjd : jget j "description" with
        | error e2 => exact ⟨rfl, fun _ => rfl, fun r hr => Option.noConfusion hr⟩
        | ok d => exact ⟨rfl, fun _ => rfl, fun r hr => Option.noConfusion hr⟩
      | ok t =>
        cases hjd : jget j "description" with
        | error e2 => exact ⟨rfl, fun _ => rfl, fun r hr => Option.noConfusion hr⟩
        | ok d => exact ⟨rfl, fun hno => Bool.noConfusion hno, fun r _ => ⟨rfl, rfl⟩⟩

/-- Claim C6, witness: a concrete submission whose structured-text step
fails issues exactly the one text call and renders no result. -/
theorem c6_witness :
    (generateProduct ⟨Except.error "bad json", Except.ok []⟩
        ⟨"cap logo", false, none⟩).2 = [CallTag.textGen (strategyPrompt "cap logo")] ∧
    (generateProduct ⟨Except.error "bad json", Except.ok []⟩
        ⟨"cap logo", false, none⟩).1.results = none := by
  have h := c6_sequential ⟨Except.error "bad json", Except.ok []⟩
    ⟨"cap logo", false, none⟩ (by decide) rfl
  exact ⟨h.1, h.2.1 rfl⟩

/-- Claim C7 (amended): mounting the Chat panel with a NONEMPTY seed string
X auto-submits X without user typing: the message sequence becomes the user
message X followed — on success — by exactly one model reply, with exactly
one message sent to the service. (An empty seed is falsy in both
`if (initialPrompt)` and the `handleSend` guard, so it submits nothing; see
the counterexample.) -/
theorem c7_seed_submit (seed reply : String) (h : ¬ seed = "") :
    chatMount ⟨Except.ok reply⟩ (some seed) =
      (⟨[⟨Role.user, seed⟩, ⟨Role.model, reply⟩], "", false⟩, [seed]) := by
  simp [chatMount, handleSend, h]

/-- Claim C7, witness: mounting with the concrete nonempty seed produces the
seeded user message and exactly one model reply. -/
theorem c7_witness :
    chatMount ⟨Except.ok "Sell more mugs."⟩ (some "Give me a strategy") =
      (⟨[⟨Role.user, "Give me a strategy"⟩, ⟨Role.model, "Sell more mugs."⟩],
        "", false⟩, ["Give me a strategy"]) :=
  c7_seed_submit "Give me a strategy" "Sell more mugs." (by decide)

/-- Claim C7, counterexample to the unamended statement: the seed string
`""` is supplied but mounting submits nothing — the message sequence stays
empty (no initial user message with text `""`) and no service call is made. -/
theorem c7_counterexample :
    chatMount ⟨Except.ok "reply"⟩ (some "") = (⟨[], "", false⟩, []) := rfl

end RobinHood
